import Mathlib

/-!
Verification development for the concurrent crawler engine
(`app/components/crawler/service.py` and `app/database.py`).

The Python code is shallowly embedded as executable Lean definitions:

* floating-point scores are modelled over `ℚ`; the machine `math.log2` is an
  abstract parameter `log2 : ℚ → ℚ`, so every theorem about the scorer holds
  for any approximation of the logarithm;
* the standard-library collaborators (`urllib.parse.urlparse`,
  `difflib.SequenceMatcher.ratio`, `urllib.robotparser`) are external to the
  repository: `urlparse` and `ratio` are abstract parameters
  (`parse : String → UrlParts`, `sim : String → String → ℚ`), while the tiny
  slice of `RobotFileParser` the crawler touches (`allow_all`,
  `disallow_all`, `can_fetch`) is modelled from its documented semantics;
* fallible external calls (HTTP fetch of robots.txt, page navigation,
  HTML retrieval) are `Except String` values fed in as parameters;
* one pass of a fetch worker's loop body (`_worker`, lines 114-158) is the
  pure step function `workerStep` over an explicit visited set, returning the
  results pushed to the db queue, the frontier items enqueued, the new
  visited set and whether the loop exits;
* Python's `set` iteration order is unspecified; `list(set(xs))` is embedded
  as `xs.dedup`, and every property proved about the result (cardinality
  bounds, distinctness, membership) is order-independent.
-/

namespace Crawler

/-- The fields of Python's `urlparse` result that the crawler reads. -/
structure UrlParts where
  netloc : String
  path : String
deriving DecidableEq, Repr

/-! ### Permission gate (`_get_robots_parser`, `is_allowed`) -/

/-- Model of `urllib.robotparser.RobotFileParser` restricted to what the
crawler uses.  `ruleEval` is the abstract entry-matching of `can_fetch`
(it may raise, e.g. on malformed URLs), consulted only when neither
`disallow_all` nor `allow_all` is set — the order in which the real
`can_fetch` checks its fields. -/
structure RobotFileParser where
  allow_all : Bool
  disallow_all : Bool
  ruleEval : String → Except String Bool

/-- `RobotFileParser.can_fetch` (Python stdlib semantics): `disallow_all`
wins, then `allow_all`, then the parsed rule entries are evaluated. -/
def canFetch (rp : RobotFileParser) (url : String) : Except String Bool :=
  if rp.disallow_all then Except.ok false
  else if rp.allow_all then Except.ok true
  else rp.ruleEval url

/-- A freshly constructed `RobotFileParser()`: both flags are off. -/
def freshRobots (ruleEval : String → Except String Bool) : RobotFileParser :=
  { allow_all := false, disallow_all := false, ruleEval := ruleEval }

/-- `_get_robots_parser` (service.py lines 75-84): fetch and parse the
origin's robots.txt; `fetchParse` is the combined outcome of
`requests.get` + `rp.parse` (both live inside the `try`).  On any
exception the freshly constructed parser gets `allow_all = True`. -/
def getRobots (ruleEval : String → Except String Bool)
    (fetchParse : Except String RobotFileParser) : RobotFileParser :=
  match fetchParse with
  | Except.ok rp => rp
  | Except.error _ => { freshRobots ruleEval with allow_all := true }

/-- `is_allowed` (service.py lines 86-90): `rp.can_fetch("*", url)` with a
bare `except: return True`. -/
def is_allowed (rp : RobotFileParser) (url : String) : Bool :=
  match canFetch rp url with
  | Except.ok b => b
  | Except.error _ => true

/-! ### Visited registry (`_worker` lines 122-126)

The critical section
```
async with visited_lock:
    if url in visited: ... continue
    visited.add(url)
```
is one atomic check-and-mark on the shared set. -/

/-- Atomic model of the visited-set critical section: returns whether the
caller may proceed (the URL was absent) together with the updated set. -/
def check_and_mark (visited : Finset String) (url : String) :
    Bool × Finset String :=
  if url ∈ visited then (false, visited) else (true, insert url visited)

/-- A sequence of `check_and_mark` calls (any interleaving of workers is
some such sequence, because the lock makes each call atomic): returns the
log of `(url, returned‐bool)` pairs and the final set. -/
def runCheckAndMark (visited : Finset String) :
    List String → List (String × Bool) × Finset String
  | [] => ([], visited)
  | u :: rest =>
    let step := check_and_mark visited u
    let tail := runCheckAndMark step.2 rest
    ((u, step.1) :: tail.1, tail.2)

/-- Number of calls in a `runCheckAndMark` log that asked about `u` and got
`true` back. -/
def trueMarks (log : List (String × Bool)) (u : String) : ℕ :=
  (log.filter (fun p => p.1 == u && p.2)).length

/-! ### Link scorer (`_url_entropy`, `_similarity`, `_get_best_links`) -/

/-- Python `str.split(sep)` for a one-character separator, structurally on
the character list (equivalent to `String.splitOn`, which does not reduce
well in the kernel): every occurrence of `sep` separates, empty parts are
kept, and splitting the empty string gives `[[]]`. -/
def splitChar (sep : Char) : List Char → List (List Char)
  | [] => [[]]
  | c :: cs =>
    let r := splitChar sep cs
    if c = sep then [] :: r
    else
      match r with
      | [] => [[c]]
      | h :: t => (c :: h) :: t

/-- Python `str.startswith`, structurally on the character lists
(`String.startsWith` is equivalent but does not reduce well in the
kernel). -/
def pyStartsWith (pre s : String) : Bool :=
  pre.toList.isPrefixOf s.toList

/-- Spec wording: the *depth* of a URL path is its count of non-empty
path segments (`len(list(filter(None, path.split("/"))))`). -/
def pathDepth (path : String) : ℕ :=
  ((splitChar '/' path.toList).filter (fun l => l != [])).length

/-- `_url_entropy` (lines 36-38):
`probs = [url.count(c)/len(url) for c in set(url)]` then
`-sum(p * log2(p) for p in probs)`.  `log2` is the abstract machine
logarithm. -/
def url_entropy (log2 : ℚ → ℚ) (url : String) : ℚ :=
  let cs := url.toList
  let probs := cs.dedup.map (fun c => ((cs.count c : ℚ)) / (cs.length : ℚ))
  Neg.neg ((probs.map (fun p => p * log2 p)).sum)

/-- The score `_get_best_links` assigns one candidate (lines 54-67):
`entropy + (2 <= depth <= 4) * 2 + (20 < plen < 120) * 2 + dup_penalty`,
where `depth` counts non-empty path segments, `plen = len(path)` and
`dup_penalty` subtracts 5 for every visited URL with
`_similarity(link, v) > 0.85`. -/
def link_score (log2 : ℚ → ℚ) (parse : String → UrlParts)
    (sim : String → String → ℚ) (visited : Finset String) (link : String) : ℚ :=
  let path := (parse link).path
  let depth := ((splitChar '/' path.toList).filter (fun l => l != [])).length
  let entropy := url_entropy log2 link
  let plen := path.length
  let dup_penalty : ℚ :=
    visited.sum (fun v => if (0.85 : ℚ) < sim link v then -5 else 0)
  entropy + (if 2 ≤ depth ∧ depth ≤ 4 then 1 else 0) * 2
    + (if 20 < plen ∧ plen < 120 then 1 else 0) * 2 + dup_penalty

/-- Spec wording of the entropy term: the Shannon entropy of the URL's
character distribution — over the distinct characters `c`, the sum of
`-(p_c * log2 p_c)` where `p_c` is `c`'s relative frequency. -/
def shannonEntropy (log2 : ℚ → ℚ) (s : String) : ℚ :=
  (s.toList.dedup.map (fun c =>
    -(((s.toList.count c : ℚ) / (s.toList.length : ℚ))
      * log2 ((s.toList.count c : ℚ) / (s.toList.length : ℚ))))).sum

/-- The order realised by Python's `scored.sort(reverse=True)` on
`(score, link)` pairs: descending lexicographic tuple order —
higher score first, and for equal scores the lexicographically larger
URL string first. -/
def tupleGe (a b : ℚ × String) : Prop :=
  b.1 < a.1 ∨ (b.1 = a.1 ∧ b.2 ≤ a.2)

instance : DecidableRel tupleGe := fun a b => by
  unfold tupleGe; infer_instance

instance : IsTotal (ℚ × String) tupleGe where
  total a b := by
    rcases lt_trichotomy a.1 b.1 with h | h | h
    · exact Or.inr (Or.inl h)
    · rcases le_total a.2 b.2 with h2 | h2
      · exact Or.inr (Or.inr ⟨h, h2⟩)
      · exact Or.inl (Or.inr ⟨h.symm, h2⟩)
    · exact Or.inl (Or.inl h)

instance : IsTrans (ℚ × String) tupleGe where
  trans a b c hab hbc := by
    rcases hab with h1 | ⟨e1, s1⟩
    · rcases hbc with h2 | ⟨e2, s2⟩
      · exact Or.inl (h2.trans h1)
      · exact Or.inl (lt_of_le_of_lt (le_of_eq e2) h1)
    · rcases hbc with h2 | ⟨e2, s2⟩
      · exact Or.inl (lt_of_lt_of_le h2 (le_of_eq e1))
      · exact Or.inr ⟨e2.trans e1, s2.trans s1⟩

instance : IsAntisymm (ℚ × String) tupleGe where
  antisymm a b hab hba := by
    rcases hab with h1 | ⟨e1, s1⟩ <;> rcases hba with h2 | ⟨e2, s2⟩
    · exact absurd h1 (lt_asymm h2)
    · exact absurd (e2 ▸ h1) (lt_irrefl _)
    · exact absurd (e1 ▸ h2) (lt_irrefl _)
    · exact Prod.ext e2 (le_antisymm s2 s1)


/-- `_get_best_links` (lines 43-71): score every candidate in discovery
order, `scored.sort(reverse=True)` (descending on the `(score, link)`
tuples), return the links of the first `limit` entries. -/
def get_best_links (log2 : ℚ → ℚ) (parse : String → UrlParts)
    (sim : String → String → ℚ) (links : List String)
    (visited : Finset String) (limit : ℕ := 5) : List String :=
  let scored := links.map (fun link => (link_score log2 parse sim visited link, link))
  ((scored.insertionSort tupleGe).take limit).map Prod.snd

/-! ### Fetch worker (`_worker`, lines 109-160)

One pass of the worker's `while True` body, as a pure step function.
The dequeued value is `none` for the shutdown sentinel.  The page
renderer is external: `fetch` is the combined outcome of
`page.goto` / `page.title()` / `page.evaluate(...)` (lines 129-131), and
on success `linkPhase` is the outcome of `page.content()` + BeautifulSoup
href extraction (lines 137-144), already resolved through `urljoin` —
an `Except.error` there models an exception raised *after* the success
record was pushed to the db queue. -/

structure FrontierItem where
  url : String
  depth : ℕ
  max_depth : ℕ
deriving DecidableEq, Repr

inductive Outcome where
  | success
  | failed
deriving DecidableEq, Repr

/-- One record pushed onto `db_queue`
(`(session_id, url, title, content, depth, status)`). -/
structure CrawlResult where
  session_id : String
  url : String
  title : String
  content : String
  depth : ℕ
  outcome : Outcome
deriving DecidableEq, Repr

/-- What a successful navigation yields: title, body text, and the
(possibly failing) later link-extraction phase producing the hrefs of
the page resolved to absolute URLs. -/
structure FetchSuccess where
  title : String
  content : String
  linkPhase : Except String (List String)

/-- Everything one pass of the worker body did. -/
structure StepResult where
  results : List CrawlResult
  enqueued : List FrontierItem
  visited : Finset String
  exits : Bool

/-- `_worker` body for one dequeued value (lines 114-158).  Mirrors the
control flow: sentinel exit; atomic duplicate skip; on fetch error one
`failed` record with title `"Error"`; on success one `success` record,
then — only if `depth < max_depth` — link discovery (filter to
`startswith("http")`, same netloc, `is_allowed`), dedup, and either the
first 50 (depth < 2) or `_get_best_links` with the updated visited set
(depth ≥ 2), each enqueued at `depth + 1` with the same `max_depth`.
An exception in the link phase lands in the `except` branch *after* the
success record was already queued, producing a second, `failed`, record. -/
def workerStep (log2 : ℚ → ℚ) (parse : String → UrlParts)
    (sim : String → String → ℚ) (session_id : String) (rp : RobotFileParser)
    (visited : Finset String) (dequeued : Option FrontierItem)
    (fetch : Except String FetchSuccess) : StepResult :=
  match dequeued with
  | none => ⟨[], [], visited, true⟩
  | some it =>
    if it.url ∈ visited then ⟨[], [], visited, false⟩
    else
      let visited := insert it.url visited
      match fetch with
      | Except.error e =>
        ⟨[⟨session_id, it.url, "Error", e, it.depth, Outcome.failed⟩], [], visited, false⟩
      | Except.ok fs =>
        let okResult : CrawlResult :=
          ⟨session_id, it.url, fs.title, fs.content, it.depth, Outcome.success⟩
        if it.depth < it.max_depth then
          match fs.linkPhase with
          | Except.error e =>
            ⟨[okResult, ⟨session_id, it.url, "Error", e, it.depth, Outcome.failed⟩],
              [], visited, false⟩
          | Except.ok hrefs =>
            let discovered := hrefs.filter (fun full =>
              pyStartsWith "http" full
                && ((parse full).netloc == (parse it.url).netloc)
                && is_allowed rp full)
            let deduped := discovered.dedup
            let targets :=
              if it.depth < 2 then deduped.take 50
              else get_best_links log2 parse sim deduped visited
            ⟨[okResult], targets.map (fun t => ⟨t, it.depth + 1, it.max_depth⟩),
              visited, false⟩
        else ⟨[okResult], [], visited, false⟩

/-! ### Orchestrator (`crawl_url`, lines 164-281) -/

/-- One row of the `crawled_pages` table (`app/database.py`), as read back
by `get_all_pages(session_id)`. -/
structure StoredRow where
  session_id : String
  url : String
  title : String
  content : String
  depth : ℕ
  status : String
deriving DecidableEq, Repr

/-- Values occurring in the dict `crawl_url` returns. -/
inductive DictVal where
  | str (v : String)
  | nat (v : ℕ)
  | num (v : ℚ)
  | strList (v : List String)
  | linkDict (allowed blocked : List String)
  | recList (v : List StoredRow)
deriving DecidableEq

/-- What the crawl phase (playwright block, workers, db writer) produced,
fed to the orchestrator model as the external outcome of the run:
the rows `get_all_pages(session_id)` returns, the wall-clock duration,
and counters for page navigations and db-writer inserts. -/
structure CrawlRun where
  rows : List StoredRow
  duration : ℚ
  fetchCount : ℕ
  dbWriteCount : ℕ

/-- Observable outcome of one `crawl_url` invocation: the returned dict
(as an association list in literal key order) plus how many page fetches
and storage writes happened. -/
structure CrawlOutcome where
  summary : List (String × DictVal)
  fetches : ℕ
  dbWrites : ℕ
  seeded : Option FrontierItem

/-- The seed item `crawl_url` enqueues (line 198):
`(url, 0, max_depth if recursive else 0)`. -/
def seedItem (url : String) (recursive : Bool) (max_depth : ℕ) : FrontierItem :=
  ⟨url, 0, if recursive then max_depth else 0⟩

/-- Lines 232-234: `full += f"\n\n== {title} ==\n{content}"` over the rows. -/
def fullTextOf (rows : List StoredRow) : String :=
  rows.foldl (fun acc r => acc ++ "\n\n== " ++ r.title ++ " ==\n" ++ r.content) ""

/-- `crawl_url` (lines 164-281).  `round2` is the external float
`round(x, 2)`; `run` is the outcome of the concurrent crawl phase,
consumed only when the permission gate lets the seed through.  The
returned dict is embedded literally: the blocked branch (line 196)
returns `{"status": "blocked"}` and nothing else, having performed no
fetch and no storage write; the success branch (lines 269-281) builds
the full summary from the rows read back for this session. -/
def crawl_url (url : String) (save_folder : Option String)
    (recursive : Bool) (max_depth : ℕ) (session_id : String)
    (rp : RobotFileParser) (round2 : ℚ → ℚ) (run : CrawlRun) : CrawlOutcome :=
  if is_allowed rp url = false then
    ⟨[("status", DictVal.str "blocked")], 0, 0, none⟩
  else
    let rows := run.rows
    let full := fullTextOf rows
    let saved_files : List String :=
      match save_folder with
      | some folder => [folder ++ "/crawl_report.json", folder ++ "/crawled_content.txt"]
      | none => []
    ⟨[("url", DictVal.str url),
      ("status", DictVal.str "success"),
      ("session_id", DictVal.str session_id),
      ("pages_crawled", DictVal.nat rows.length),
      ("full_text", DictVal.str full),
      ("content_preview", DictVal.str ((full.take 500) ++ "...")),
      ("links", DictVal.linkDict [] []),
      ("duration", DictVal.num (round2 run.duration)),
      ("crawl_only_duration", DictVal.num (round2 run.duration)),
      ("saved_files", DictVal.strList saved_files),
      ("database_records", DictVal.recList rows)],
      run.fetchCount, run.dbWriteCount, some (seedItem url recursive max_depth)⟩

/-! ## Theorems -/

/-! ### Visited registry -/

lemma runCheckAndMark_trueMarks_of_mem (u : String) :
    ∀ (calls : List String) (visited : Finset String), u ∈ visited →
      trueMarks (runCheckAndMark visited calls).1 u = 0 := by
  intro calls
  induction calls with
  | nil => intro visited _; simp [runCheckAndMark, trueMarks]
  | cons c rest ih =>
    intro visited hu
    by_cases hc : c ∈ visited
    · simp only [runCheckAndMark, check_and_mark, if_pos hc, trueMarks,
        List.filter_cons, Bool.and_false, List.length_cons]
      simpa [trueMarks] using ih visited hu
    · have hcu : ¬ (c = u) := fun h => hc (h ▸ hu)
      simp only [runCheckAndMark, check_and_mark, if_neg hc, trueMarks,
        List.filter_cons]
      have : ((c == u) && true) = false := by
        simp [hcu]
      rw [this]
      simpa [trueMarks] using ih (insert c visited) (Finset.mem_insert_of_mem hu)

lemma runCheckAndMark_trueMarks_le_one (u : String) :
    ∀ (calls : List String) (visited : Finset String),
      trueMarks (runCheckAndMark visited calls).1 u ≤ 1 := by
  intro calls
  induction calls with
  | nil => intro visited; simp [runCheckAndMark, trueMarks]
  | cons c rest ih =>
    intro visited
    by_cases hc : c ∈ visited
    · simp only [runCheckAndMark, check_and_mark, if_pos hc, trueMarks,
        List.filter_cons, Bool.and_false]
      simpa [trueMarks] using ih visited
    · simp only [runCheckAndMark, check_and_mark, if_neg hc, trueMarks,
        List.filter_cons, Bool.and_true]
      by_cases hcu : c = u
      · subst hcu
        have hzero := runCheckAndMark_trueMarks_of_mem c rest (insert c visited)
          (Finset.mem_insert_self c visited)
        simp only [trueMarks] at hzero
        simp [hzero]
      · have : (c == u) = false := by simp [hcu]
        rw [this]
        simpa [trueMarks] using ih (insert c visited)

/-- **C2.** `check_and_mark` is the atomic visited-set operation: on an
absent URL it returns `true` and adds the URL, on a present URL it
returns `false` and leaves the set unchanged; and over any sequence of
calls (any lock-serialised interleaving of workers) it returns `true`
at most once per unique URL. -/
theorem check_and_mark_spec (visited : Finset String) (url : String)
    (calls : List String) (init : Finset String) :
    (url ∉ visited → check_and_mark visited url = (true, insert url visited)) ∧
    (url ∈ visited → check_and_mark visited url = (false, visited)) ∧
    trueMarks (runCheckAndMark init calls).1 url ≤ 1 := by
  refine ⟨fun h => ?_, fun h => ?_, runCheckAndMark_trueMarks_le_one url calls init⟩
  · simp [check_and_mark, h]
  · simp [check_and_mark, h]

/-! ### Link scorer: score decomposition -/

lemma url_entropy_eq_shannon (log2 : ℚ → ℚ) (s : String) :
    url_entropy log2 s = shannonEntropy log2 s := by
  simp only [url_entropy, shannonEntropy]
  rw [List.sum_neg, List.map_map, List.map_map]
  rfl

/-- **C4.** The score `_get_best_links` assigns a candidate decomposes
exactly as the spec describes: Shannon entropy of the URL's character
distribution, plus 2 when the count of non-empty path segments is in
`[2, 4]`, plus 2 when the path length is strictly between 20 and 120,
minus 5 for every visited URL whose similarity to the candidate
exceeds 0.85 — for any machine logarithm `log2`, any URL parser and any
similarity function. -/
theorem link_score_decomposition (log2 : ℚ → ℚ) (parse : String → UrlParts)
    (sim : String → String → ℚ) (visited : Finset String) (link : String) :
    link_score log2 parse sim visited link =
      shannonEntropy log2 link
        + (if 2 ≤ pathDepth (parse link).path ∧ pathDepth (parse link).path ≤ 4
            then 2 else 0)
        + (if 20 < (parse link).path.length ∧ (parse link).path.length < 120
            then 2 else 0)
        - 5 * ((visited.filter (fun v => (0.85 : ℚ) < sim link v)).card : ℚ) := by
  have hdup : (visited.sum fun v => if (0.85 : ℚ) < sim link v then (-5 : ℚ) else 0)
      = -5 * ((visited.filter (fun v => (0.85 : ℚ) < sim link v)).card : ℚ) := by
    rw [Finset.sum_ite, Finset.sum_const, Finset.sum_const]
    simp [mul_comm]
  simp only [link_score, pathDepth]
  rw [url_entropy_eq_shannon, hdup]
  split_ifs <;> ring

/-! ### Link scorer: selection order -/

lemma sorted_pair_fix (log2 : ℚ → ℚ) (parse : String → UrlParts)
    (sim : String → String → ℚ) (links : List String) (visited : Finset String)
    (p : ℚ × String)
    (hp : p ∈ (links.map (fun u => (link_score log2 parse sim visited u, u))).insertionSort
      tupleGe) :
    p = (link_score log2 parse sim visited p.2, p.2) := by
  rw [List.mem_insertionSort] at hp
  rcases List.mem_map.mp hp with ⟨u, _, rfl⟩
  rfl

lemma get_best_links_subset (log2 : ℚ → ℚ) (parse : String → UrlParts)
    (sim : String → String → ℚ) (links : List String) (visited : Finset String)
    (limit : ℕ) (l : String)
    (hl : l ∈ get_best_links log2 parse sim links visited limit) : l ∈ links := by
  simp only [get_best_links] at hl
  rcases List.mem_map.mp hl with ⟨p, hp, rfl⟩
  have hpS := (List.take_sublist _ _).subset hp
  rw [List.mem_insertionSort] at hpS
  rcases List.mem_map.mp hpS with ⟨u, hu, rfl⟩
  exact hu

lemma get_best_links_length (log2 : ℚ → ℚ) (parse : String → UrlParts)
    (sim : String → String → ℚ) (links : List String) (visited : Finset String)
    (limit : ℕ) :
    (get_best_links log2 parse sim links visited limit).length
      = min limit links.length := by
  simp only [get_best_links]
  rw [List.length_map, List.length_take, List.length_insertionSort, List.length_map]

/-- **C3 (amended).** `_get_best_links` returns the top `limit` candidates
under *descending `(score, URL-string)` tuple order*: the result is sorted
descending by score with equal-score ties broken by descending
lexicographic order of the URL string (not by discovery order — Python's
`sort(reverse=True)` compares whole `(score, link)` tuples), every
returned link is a candidate, the result has `min limit |links|` elements,
and every candidate left out is tuple-below every selected one. -/
theorem get_best_links_top_by_tuple_order (log2 : ℚ → ℚ)
    (parse : String → UrlParts) (sim : String → String → ℚ)
    (links : List String) (visited : Finset String) (limit : ℕ) (l sel : String)
    (hl : l ∈ links)
    (hlnot : l ∉ get_best_links log2 parse sim links visited limit)
    (hsel : sel ∈ get_best_links log2 parse sim links visited limit) :
    (get_best_links log2 parse sim links visited limit).length
        = min limit links.length
      ∧ sel ∈ links
      ∧ List.Sorted tupleGe
          ((get_best_links log2 parse sim links visited limit).map
            (fun u => (link_score log2 parse sim visited u, u)))
      ∧ tupleGe (link_score log2 parse sim visited sel, sel)
          (link_score log2 parse sim visited l, l) := by
  have hres : get_best_links log2 parse sim links visited limit
      = (((links.map (fun u => (link_score log2 parse sim visited u, u))).insertionSort
          tupleGe).take limit).map Prod.snd := rfl
  have hsorted : List.Sorted tupleGe
      ((links.map (fun u => (link_score log2 parse sim visited u, u))).insertionSort
        tupleGe) :=
    List.sorted_insertionSort tupleGe _
  refine ⟨get_best_links_length log2 parse sim links visited limit,
    get_best_links_subset log2 parse sim links visited limit sel hsel, ?_, ?_⟩
  · have hmapfix : (get_best_links log2 parse sim links visited limit).map
        (fun u => (link_score log2 parse sim visited u, u))
        = (((links.map (fun u => (link_score log2 parse sim visited u, u))).insertionSort
            tupleGe).take limit) := by
      rw [hres, List.map_map]
      have hid : ∀ p ∈ (((links.map
          (fun u => (link_score log2 parse sim visited u, u))).insertionSort
            tupleGe).take limit),
          ((fun u => (link_score log2 parse sim visited u, u)) ∘ Prod.snd) p = p :=
        fun p hp =>
          (sorted_pair_fix log2 parse sim links visited p
            ((List.take_sublist _ _).subset hp)).symm
      rw [List.map_congr_left hid]
      simp
    rw [hmapfix]
    exact List.Pairwise.sublist (List.take_sublist _ _) hsorted
  · have hfl : (link_score log2 parse sim visited l, l)
        ∈ (links.map (fun u => (link_score log2 parse sim visited u, u))).insertionSort
          tupleGe := by
      rw [List.mem_insertionSort]
      exact List.mem_map.mpr ⟨l, hl, rfl⟩
    rw [← List.take_append_drop limit
      ((links.map (fun u => (link_score log2 parse sim visited u, u))).insertionSort
        tupleGe)] at hfl
    have hfl_drop : (link_score log2 parse sim visited l, l)
        ∈ (((links.map (fun u => (link_score log2 parse sim visited u, u))).insertionSort
            tupleGe).drop limit) := by
      rcases List.mem_append.mp hfl with h | h
      · exact absurd (by
          rw [hres]
          exact List.mem_map.mpr ⟨(link_score log2 parse sim visited l, l), h, rfl⟩) hlnot
      · exact h
    rcases List.mem_map.mp (hres ▸ hsel) with ⟨p, hp, hpsel⟩
    have hpf : p = (link_score log2 parse sim visited sel, sel) := by
      rw [← hpsel]
      exact sorted_pair_fix log2 parse sim links visited p
        ((List.take_sublist _ _).subset hp)
    have hpairs : ∀ a ∈ (((links.map
        (fun u => (link_score log2 parse sim visited u, u))).insertionSort
          tupleGe).take limit),
        ∀ b ∈ (((links.map
          (fun u => (link_score log2 parse sim visited u, u))).insertionSort
            tupleGe).drop limit), tupleGe a b := by
      have h := hsorted
      rw [← List.take_append_drop limit
        ((links.map (fun u => (link_score log2 parse sim visited u, u))).insertionSort
          tupleGe)] at h
      exact (List.pairwise_append.mp h).2.2
    have := hpairs p hp _ hfl_drop
    rwa [hpf] at this

lemma url_entropy_zero (s : String) : url_entropy (fun _ => 0) s = 0 := by
  simp only [url_entropy]
  rw [neg_eq_zero]
  apply List.sum_eq_zero
  intro x hx
  rcases List.mem_map.mp hx with ⟨p, _, rfl⟩
  exact mul_zero p

lemma link_score_triv (sim : String → String → ℚ) (u : String) :
    link_score (fun _ => 0) (fun _ => (⟨"", ""⟩ : UrlParts)) sim ∅ u = 0 := by
  simp [link_score, url_entropy_zero, splitChar]

lemma get_best_links_triv_eval (limit : ℕ) :
    get_best_links (fun _ => 0) (fun _ => (⟨"", ""⟩ : UrlParts)) (fun _ _ => 0)
      ["http://a.com/ab", "http://a.com/ba"] ∅ limit
    = ["http://a.com/ba", "http://a.com/ab"].take limit := by
  have hcond : ¬ tupleGe
      (link_score (fun _ => 0) (fun _ => (⟨"", ""⟩ : UrlParts)) (fun _ _ => 0) ∅
        "http://a.com/ab", "http://a.com/ab")
      (link_score (fun _ => 0) (fun _ => (⟨"", ""⟩ : UrlParts)) (fun _ _ => 0) ∅
        "http://a.com/ba", "http://a.com/ba") := by
    rw [link_score_triv, link_score_triv]
    simp only [tupleGe, lt_irrefl, false_or, true_and]
    simp
    decide
  simp only [get_best_links, List.map_cons, List.map_nil, List.insertionSort,
    List.orderedInsert, if_neg hcond]
  rw [List.map_take]
  simp

/-- Counterexample to **C3**: two candidates with *equal* scores (empty
visited set, constant path, equal character multisets so the entropies
agree) are returned in *reverse* discovery order — Python's
`sort(reverse=True)` breaks score ties by descending URL string, not by
original discovery order. -/
theorem get_best_links_breaks_discovery_order :
    link_score (fun _ => 0) (fun _ => (⟨"", ""⟩ : UrlParts)) (fun _ _ => 0) ∅
        "http://a.com/ab"
      = link_score (fun _ => 0) (fun _ => (⟨"", ""⟩ : UrlParts)) (fun _ _ => 0) ∅
        "http://a.com/ba"
    ∧ get_best_links (fun _ => 0) (fun _ => (⟨"", ""⟩ : UrlParts)) (fun _ _ => 0)
        ["http://a.com/ab", "http://a.com/ba"] ∅ 5
      = ["http://a.com/ba", "http://a.com/ab"] := by
  constructor
  · rw [link_score_triv, link_score_triv]
  · rw [get_best_links_triv_eval]
    rfl

/-- Witness for `get_best_links_top_by_tuple_order`: with two equal-scored
candidates and `limit = 1` the selected link is the lexicographically
larger one and the dropped one is tuple-below it. -/
theorem get_best_links_top_by_tuple_order_witness :
    ("http://a.com/ab" ∈ ["http://a.com/ab", "http://a.com/ba"])
    ∧ ("http://a.com/ab" ∉ get_best_links (fun _ => 0)
        (fun _ => (⟨"", ""⟩ : UrlParts)) (fun _ _ => 0)
        ["http://a.com/ab", "http://a.com/ba"] ∅ 1)
    ∧ ("http://a.com/ba" ∈ get_best_links (fun _ => 0)
        (fun _ => (⟨"", ""⟩ : UrlParts)) (fun _ _ => 0)
        ["http://a.com/ab", "http://a.com/ba"] ∅ 1)
    ∧ ((get_best_links (fun _ => 0) (fun _ => (⟨"", ""⟩ : UrlParts)) (fun _ _ => 0)
          ["http://a.com/ab", "http://a.com/ba"] ∅ 1).length = min 1 2
      ∧ "http://a.com/ba" ∈ ["http://a.com/ab", "http://a.com/ba"]
      ∧ List.Sorted tupleGe
          ((get_best_links (fun _ => 0) (fun _ => (⟨"", ""⟩ : UrlParts)) (fun _ _ => 0)
            ["http://a.com/ab", "http://a.com/ba"] ∅ 1).map
              (fun u => (link_score (fun _ => 0) (fun _ => (⟨"", ""⟩ : UrlParts))
                (fun _ _ => 0) ∅ u, u)))
      ∧ tupleGe
          (link_score (fun _ => 0) (fun _ => (⟨"", ""⟩ : UrlParts)) (fun _ _ => 0) ∅
            "http://a.com/ba", "http://a.com/ba")
          (link_score (fun _ => 0) (fun _ => (⟨"", ""⟩ : UrlParts)) (fun _ _ => 0) ∅
            "http://a.com/ab", "http://a.com/ab")) := by
  have hnot : "http://a.com/ab" ∉ get_best_links (fun _ => 0)
      (fun _ => (⟨"", ""⟩ : UrlParts)) (fun _ _ => 0)
      ["http://a.com/ab", "http://a.com/ba"] ∅ 1 := by
    rw [get_best_links_triv_eval]
    decide
  have hsel : "http://a.com/ba" ∈ get_best_links (fun _ => 0)
      (fun _ => (⟨"", ""⟩ : UrlParts)) (fun _ _ => 0)
      ["http://a.com/ab", "http://a.com/ba"] ∅ 1 := by
    rw [get_best_links_triv_eval]
    decide
  exact ⟨by decide, hnot, hsel,
    get_best_links_top_by_tuple_order (fun _ => 0) (fun _ => (⟨"", ""⟩ : UrlParts))
      (fun _ _ => 0) ["http://a.com/ab", "http://a.com/ba"] ∅ 1
      "http://a.com/ab" "http://a.com/ba" (by decide) hnot hsel⟩

/-- Witness for `check_and_mark_spec`: a fresh URL is marked and a second
identical call is refused; the log of `["u", "u", "v"]` from an empty
registry grants `"u"` exactly once. -/
theorem check_and_mark_spec_witness :
    ("u" ∉ (∅ : Finset String)) ∧ ("u" ∈ ({"u"} : Finset String)) ∧
      (check_and_mark ∅ "u" = (true, insert "u" ∅) ∧
        check_and_mark {"u"} "u" = (false, {"u"}) ∧
        trueMarks (runCheckAndMark ∅ ["u", "u", "v"]).1 "u" ≤ 1) := by
    have h1 := check_and_mark_spec ∅ "u" ["u", "u", "v"] ∅
    have h2 := check_and_mark_spec {"u"} "u" ["u", "u", "v"] ∅
    exact ⟨by decide, by decide,
      h1.1 (by decide), h2.2.1 (by decide), h1.2.2⟩

/-! ### Fetch worker -/

/-- **C8.** When the fetch of a dequeued, not-yet-visited item fails, the
worker pushes exactly one `failed` result whose content is the error
description and whose title is the sentinel `"Error"`, enqueues no
children, and does not exit its loop. -/
theorem worker_fetch_failure (log2 : ℚ → ℚ) (parse : String → UrlParts)
    (sim : String → String → ℚ) (session_id : String) (rp : RobotFileParser)
    (visited : Finset String) (it : FrontierItem) (e : String)
    (h : it.url ∉ visited) :
    workerStep log2 parse sim session_id rp visited (some it) (Except.error e)
      = ⟨[⟨session_id, it.url, "Error", e, it.depth, Outcome.failed⟩], [],
          insert it.url visited, false⟩ := by
  simp [workerStep, h]

/-- Witness for `worker_fetch_failure`: a navigation timeout on a fresh
URL yields the single failed record and an empty child list. -/
theorem worker_fetch_failure_witness :
    ("http://a.com" ∉ (∅ : Finset String))
    ∧ workerStep (fun _ => 0) (fun _ => (⟨"", ""⟩ : UrlParts)) (fun _ _ => 0) "s"
        (freshRobots (fun _ => Except.ok true)) ∅
        (some ⟨"http://a.com", 0, 1⟩) (Except.error "Timeout 20000ms exceeded")
      = ⟨[⟨"s", "http://a.com", "Error", "Timeout 20000ms exceeded", 0,
            Outcome.failed⟩], [], insert "http://a.com" ∅, false⟩ :=
  ⟨by decide,
    worker_fetch_failure (fun _ => 0) (fun _ => (⟨"", ""⟩ : UrlParts)) (fun _ _ => 0)
      "s" (freshRobots (fun _ => Except.ok true)) ∅ ⟨"http://a.com", 0, 1⟩
      "Timeout 20000ms exceeded" (by decide)⟩

/-- **C1 is violated by the code** (late link-phase failure): for an item
at `depth < max_depth` whose navigation and text extraction succeed but
whose HTML retrieval for link discovery then raises, the worker pushes
*two* records onto the db queue for this single dequeued item — the
already-queued `success` record and then a `failed` record from the
`except` block. -/
theorem worker_two_results_on_late_link_failure :
    (workerStep (fun _ => 0) (fun _ => (⟨"", ""⟩ : UrlParts)) (fun _ _ => 0) "s"
        (freshRobots (fun _ => Except.ok true)) ∅
        (some ⟨"http://a.com", 0, 1⟩)
        (Except.ok ⟨"Title", "Body", Except.error "Page.content: page closed"⟩)).results
      = [⟨"s", "http://a.com", "Title", "Body", 0, Outcome.success⟩,
         ⟨"s", "http://a.com", "Error", "Page.content: page closed", 0, Outcome.failed⟩]
    ∧ (workerStep (fun _ => 0) (fun _ => (⟨"", ""⟩ : UrlParts)) (fun _ _ => 0) "s"
        (freshRobots (fun _ => Except.ok true)) ∅
        (some ⟨"http://a.com", 0, 1⟩)
        (Except.ok ⟨"Title", "Body", Except.error "Page.content: page closed"⟩)).results.length
      = 2 := by
  decide

/-- **C9.** On a successful fetch of a not-yet-visited item, children are
enqueued only when `depth < max_depth`; every enqueued child carries
`depth + 1`, the same `max_depth`, and a URL from the deduplicated
same-origin permission-allowed candidates; below depth 2 at most 50
distinct candidates are enqueued, from depth 2 on the scorer selects at
most 5. -/
theorem worker_success_enqueue_policy (log2 : ℚ → ℚ) (parse : String → UrlParts)
    (sim : String → String → ℚ) (session_id : String) (rp : RobotFileParser)
    (visited : Finset String) (it : FrontierItem) (title content : String)
    (hrefs : List String) (hvis : it.url ∉ visited) :
    (¬ it.depth < it.max_depth →
      (workerStep log2 parse sim session_id rp visited (some it)
        (Except.ok ⟨title, content, Except.ok hrefs⟩)).enqueued = [])
    ∧ (∀ ch ∈ (workerStep log2 parse sim session_id rp visited (some it)
        (Except.ok ⟨title, content, Except.ok hrefs⟩)).enqueued,
        ch.depth = it.depth + 1 ∧ ch.max_depth = it.max_depth
          ∧ ch.url ∈ (hrefs.filter (fun full =>
              pyStartsWith "http" full
                && ((parse full).netloc == (parse it.url).netloc)
                && is_allowed rp full)).dedup)
    ∧ (it.depth < 2 →
        (workerStep log2 parse sim session_id rp visited (some it)
          (Except.ok ⟨title, content, Except.ok hrefs⟩)).enqueued.length ≤ 50
        ∧ ((workerStep log2 parse sim session_id rp visited (some it)
            (Except.ok ⟨title, content, Except.ok hrefs⟩)).enqueued.map
              FrontierItem.url).Nodup)
    ∧ (2 ≤ it.depth →
        (workerStep log2 parse sim session_id rp visited (some it)
          (Except.ok ⟨title, content, Except.ok hrefs⟩)).enqueued.length ≤ 5) := by
  have hstep : workerStep log2 parse sim session_id rp visited (some it)
      (Except.ok ⟨title, content, Except.ok hrefs⟩)
      = (if it.depth < it.max_depth then
          ⟨[⟨session_id, it.url, title, content, it.depth, Outcome.success⟩],
            ((if it.depth < 2 then
                ((hrefs.filter (fun full =>
                  pyStartsWith "http" full
                    && ((parse full).netloc == (parse it.url).netloc)
                    && is_allowed rp full)).dedup).take 50
              else get_best_links log2 parse sim
                ((hrefs.filter (fun full =>
                  pyStartsWith "http" full
                    && ((parse full).netloc == (parse it.url).netloc)
                    && is_allowed rp full)).dedup)
                (insert it.url visited))).map
              (fun t => ⟨t, it.depth + 1, it.max_depth⟩),
            insert it.url visited, false⟩
        else ⟨[⟨session_id, it.url, title, content, it.depth, Outcome.success⟩], [],
            insert it.url visited, false⟩) := by
    simp [workerStep, hvis]
  refine ⟨fun hnd => ?_, fun ch hch => ?_, fun h2 => ?_, fun h2 => ?_⟩
  · rw [hstep, if_neg hnd]
  · by_cases hd : it.depth < it.max_depth
    · rw [hstep, if_pos hd] at hch
      simp only at hch
      rcases List.mem_map.mp hch with ⟨t, ht, rfl⟩
      refine ⟨rfl, rfl, ?_⟩
      by_cases h2 : it.depth < 2
      · rw [if_pos h2] at ht
        exact (List.take_sublist _ _).subset ht
      · rw [if_neg h2] at ht
        exact get_best_links_subset log2 parse sim _ _ _ _ ht
    · rw [hstep, if_neg hd] at hch
      simp at hch
  · by_cases hd : it.depth < it.max_depth
    · rw [hstep, if_pos hd]
      simp only [if_pos h2]
      constructor
      · rw [List.length_map, List.length_take]
        exact min_le_left _ _
      · have hmap : ((((hrefs.filter (fun full =>
            pyStartsWith "http" full
              && ((parse full).netloc == (parse it.url).netloc)
              && is_allowed rp full)).dedup).take 50).map
            (fun t => (⟨t, it.depth + 1, it.max_depth⟩ : FrontierItem))).map
              FrontierItem.url
            = (((hrefs.filter (fun full =>
                pyStartsWith "http" full
                  && ((parse full).netloc == (parse it.url).netloc)
                  && is_allowed rp full)).dedup).take 50) := by
          rw [List.map_map]
          have hcomp : (FrontierItem.url ∘ fun t =>
              (⟨t, it.depth + 1, it.max_depth⟩ : FrontierItem)) = id := rfl
          rw [hcomp, List.map_id]
        rw [hmap]
        exact List.Nodup.sublist (List.take_sublist _ _) (List.nodup_dedup _)
    · rw [hstep, if_neg hd]
      simp
  · by_cases hd : it.depth < it.max_depth
    · rw [hstep, if_pos hd]
      have hn2 : ¬ it.depth < 2 := by omega
      simp only [if_neg hn2]
      rw [List.length_map]
      have := get_best_links_length log2 parse sim
        ((hrefs.filter (fun full =>
          pyStartsWith "http" full
            && ((parse full).netloc == (parse it.url).netloc)
            && is_allowed rp full)).dedup)
        (insert it.url visited) 5
      omega
    · rw [hstep, if_neg hd]
      simp

/-- Witness for `worker_success_enqueue_policy`: at depth 0 two distinct
same-origin links survive filtering and dedup and are enqueued at depth 1;
at depth 2 the scorer caps the enqueued children at 5; with
`depth = max_depth` nothing is enqueued. -/
theorem worker_success_enqueue_policy_witness :
    ("http://a.com" ∉ (∅ : Finset String))
    ∧ (⟨"http://a.com/x", 1, 1⟩ ∈ (workerStep (fun _ => 0)
        (fun _ => (⟨"", ""⟩ : UrlParts)) (fun _ _ => 0) "s"
        (freshRobots (fun _ => Except.ok true)) ∅ (some ⟨"http://a.com", 0, 1⟩)
        (Except.ok ⟨"T", "B", Except.ok
          ["http://a.com/x", "mailto:bob", "http://a.com/x", "http://a.com/y"]⟩)).enqueued)
    ∧ ((⟨"http://a.com/x", 1, 1⟩ : FrontierItem).depth = 0 + 1
      ∧ (⟨"http://a.com/x", 1, 1⟩ : FrontierItem).max_depth = 1
      ∧ (⟨"http://a.com/x", 1, 1⟩ : FrontierItem).url ∈
          ((["http://a.com/x", "mailto:bob", "http://a.com/x", "http://a.com/y"].filter
            (fun full => pyStartsWith "http" full
              && ((((fun _ => (⟨"", ""⟩ : UrlParts)) : String → UrlParts) full).netloc
                  == (((fun _ => (⟨"", ""⟩ : UrlParts)) : String → UrlParts)
                    "http://a.com").netloc)
              && is_allowed (freshRobots (fun _ => Except.ok true)) full)).dedup))
    ∧ ((workerStep (fun _ => 0) (fun _ => (⟨"", ""⟩ : UrlParts)) (fun _ _ => 0) "s"
        (freshRobots (fun _ => Except.ok true)) ∅ (some ⟨"http://a.com", 0, 1⟩)
        (Except.ok ⟨"T", "B", Except.ok
          ["http://a.com/x", "mailto:bob", "http://a.com/x", "http://a.com/y"]⟩)).enqueued.length
        ≤ 50)
    ∧ ((workerStep (fun _ => 0) (fun _ => (⟨"", ""⟩ : UrlParts)) (fun _ _ => 0) "s"
        (freshRobots (fun _ => Except.ok true)) ∅ (some ⟨"http://a.com", 2, 3⟩)
        (Except.ok ⟨"T", "B", Except.ok
          ["http://a.com/x", "mailto:bob", "http://a.com/x", "http://a.com/y"]⟩)).enqueued.length
        ≤ 5)
    ∧ ((workerStep (fun _ => 0) (fun _ => (⟨"", ""⟩ : UrlParts)) (fun _ _ => 0) "s"
        (freshRobots (fun _ => Except.ok true)) ∅ (some ⟨"http://a.com", 1, 1⟩)
        (Except.ok ⟨"T", "B", Except.ok
          ["http://a.com/x", "mailto:bob", "http://a.com/x", "http://a.com/y"]⟩)).enqueued
        = []) := by
  have h0 := worker_success_enqueue_policy (fun _ => 0) (fun _ => (⟨"", ""⟩ : UrlParts))
    (fun _ _ => 0) "s" (freshRobots (fun _ => Except.ok true)) ∅
    ⟨"http://a.com", 0, 1⟩ "T" "B"
    ["http://a.com/x", "mailto:bob", "http://a.com/x", "http://a.com/y"] (by decide)
  have h2 := worker_success_enqueue_policy (fun _ => 0) (fun _ => (⟨"", ""⟩ : UrlParts))
    (fun _ _ => 0) "s" (freshRobots (fun _ => Except.ok true)) ∅
    ⟨"http://a.com", 2, 3⟩ "T" "B"
    ["http://a.com/x", "mailto:bob", "http://a.com/x", "http://a.com/y"] (by decide)
  have h1 := worker_success_enqueue_policy (fun _ => 0) (fun _ => (⟨"", ""⟩ : UrlParts))
    (fun _ _ => 0) "s" (freshRobots (fun _ => Except.ok true)) ∅
    ⟨"http://a.com", 1, 1⟩ "T" "B"
    ["http://a.com/x", "mailto:bob", "http://a.com/x", "http://a.com/y"] (by decide)
  have hmem : (⟨"http://a.com/x", 1, 1⟩ : FrontierItem) ∈ (workerStep (fun _ => 0)
      (fun _ => (⟨"", ""⟩ : UrlParts)) (fun _ _ => 0) "s"
      (freshRobots (fun _ => Except.ok true)) ∅ (some ⟨"http://a.com", 0, 1⟩)
      (Except.ok ⟨"T", "B", Except.ok
        ["http://a.com/x", "mailto:bob", "http://a.com/x", "http://a.com/y"]⟩)).enqueued := by
    decide
  exact ⟨by decide, hmem, h0.2.1 _ hmem, (h0.2.2.1 (by decide)).1,
    h2.2.2.2 (by decide), h1.1 (by decide)⟩

/-- **C10.** With `recursive=False`, `crawl_url` seeds the frontier with
`max_depth = 0` no matter what `max_depth` argument was passed, and a
worker processing any item whose `max_depth` is 0 never enqueues a child
(on any fetch outcome), so the `max_depth` parameter has no effect unless
`recursive` is true. -/
theorem non_recursive_ignores_max_depth (url : String) (m m' : ℕ)
    (log2 : ℚ → ℚ) (parse : String → UrlParts) (sim : String → String → ℚ)
    (session_id : String) (rp : RobotFileParser) (visited : Finset String)
    (u : String) (d : ℕ) (fetch : Except String FetchSuccess)
    (save_folder : Option String) (round2 : ℚ → ℚ) (run : CrawlRun) :
    seedItem url false m = ⟨url, 0, 0⟩
    ∧ seedItem url false m = seedItem url false m'
    ∧ ((crawl_url url save_folder false m session_id rp round2 run).seeded = none
        ∨ (crawl_url url save_folder false m session_id rp round2 run).seeded
          = some ⟨url, 0, 0⟩)
    ∧ (workerStep log2 parse sim session_id rp visited (some ⟨u, d, 0⟩) fetch).enqueued
        = [] := by
  refine ⟨by simp [seedItem], by simp [seedItem], ?_, ?_⟩
  · by_cases h : is_allowed rp url = false
    · exact Or.inl (by simp [crawl_url, h])
    · exact Or.inr (by simp [crawl_url, h, seedItem])
  · by_cases hu : u ∈ visited
    · simp [workerStep, hu]
    · cases fetch with
      | error e => simp [workerStep, hu]
      | ok fs => simp [workerStep, hu]

/-! ### Permission gate -/

/-- **C7.** The permission gate fails open: when fetching/parsing the
robots file fails, the constructed policy permits every URL; and whenever
evaluating `can_fetch` raises internally, `is_allowed` returns true. -/
theorem permission_gate_fail_open (ruleEval : String → Except String Bool)
    (e url msg : String) (rp : RobotFileParser) :
    is_allowed (getRobots ruleEval (Except.error e)) url = true
    ∧ (canFetch rp url = Except.error msg → is_allowed rp url = true) := by
  constructor
  · simp [is_allowed, getRobots, canFetch, freshRobots]
  · intro h
    simp [is_allowed, h]

/-- Witness for `permission_gate_fail_open`: an unreachable robots file
and a `can_fetch` that raises are both treated as permitted. -/
theorem permission_gate_fail_open_witness :
    (canFetch ⟨false, false, fun _ => Except.error "invalid url"⟩ "http://x"
      = Except.error "invalid url")
    ∧ is_allowed (getRobots (fun _ => Except.ok true)
        (Except.error "connection timeout")) "http://x" = true
    ∧ is_allowed ⟨false, false, fun _ => Except.error "invalid url"⟩ "http://x"
      = true := by
  have h := permission_gate_fail_open (fun _ => Except.ok true) "connection timeout"
    "http://x" "invalid url" ⟨false, false, fun _ => Except.error "invalid url"⟩
  exact ⟨rfl, h.1, h.2 rfl⟩

/-! ### Orchestrator -/

/-- **C5.** A seed disallowed by the permission gate makes `crawl_url`
return the blocked summary immediately: no page fetch happens, no storage
write happens, and nothing is seeded into the frontier. -/
theorem crawl_blocked_no_effects (url : String) (save_folder : Option String)
    (recursive : Bool) (max_depth : ℕ) (session_id : String)
    (rp : RobotFileParser) (round2 : ℚ → ℚ) (run : CrawlRun)
    (h : is_allowed rp url = false) :
    (crawl_url url save_folder recursive max_depth session_id rp round2 run).summary
        = [("status", DictVal.str "blocked")]
    ∧ (crawl_url url save_folder recursive max_depth session_id rp round2 run).fetches
        = 0
    ∧ (crawl_url url save_folder recursive max_depth session_id rp round2 run).dbWrites
        = 0
    ∧ (crawl_url url save_folder recursive max_depth session_id rp round2 run).seeded
        = none := by
  simp [crawl_url, h]

/-- Witness for `crawl_blocked_no_effects`: a policy whose rules disallow
everything blocks the crawl even when the surrounding run would have
counted fetches and writes. -/
theorem crawl_blocked_no_effects_witness :
    (is_allowed ⟨false, false, fun _ => Except.ok false⟩ "http://x" = false)
    ∧ ((crawl_url "http://x" (some "out") true 3 "sid"
        ⟨false, false, fun _ => Except.ok false⟩ id ⟨[], 0, 7, 7⟩).summary
        = [("status", DictVal.str "blocked")]
      ∧ (crawl_url "http://x" (some "out") true 3 "sid"
        ⟨false, false, fun _ => Except.ok false⟩ id ⟨[], 0, 7, 7⟩).fetches = 0
      ∧ (crawl_url "http://x" (some "out") true 3 "sid"
        ⟨false, false, fun _ => Except.ok false⟩ id ⟨[], 0, 7, 7⟩).dbWrites = 0
      ∧ (crawl_url "http://x" (some "out") true 3 "sid"
        ⟨false, false, fun _ => Except.ok false⟩ id ⟨[], 0, 7, 7⟩).seeded = none) :=
  ⟨rfl, crawl_blocked_no_effects "http://x" (some "out") true 3 "sid"
    ⟨false, false, fun _ => Except.ok false⟩ id ⟨[], 0, 7, 7⟩ rfl⟩

/-- **C6 (amended).** The dict `crawl_url` returns carries all the spec's
summary fields only on the success path (with the code's key names
`content_preview`, `duration`, `saved_files`, `database_records` for the
spec's preview/duration_seconds/saved_file_paths/records, plus `links`
and `crawl_only_duration`); the blocked branch returns a dict containing
*only* `status`, and no `error` status is ever returned (orchestration
failures raise instead). -/
theorem crawl_summary_keys (url : String) (save_folder : Option String)
    (recursive : Bool) (max_depth : ℕ) (session_id : String)
    (rp : RobotFileParser) (round2 : ℚ → ℚ) (run : CrawlRun) :
    (crawl_url url save_folder recursive max_depth session_id rp round2 run).summary.map
        Prod.fst
      = if is_allowed rp url then
          ["url", "status", "session_id", "pages_crawled", "full_text",
            "content_preview", "links", "duration", "crawl_only_duration",
            "saved_files", "database_records"]
        else ["status"] := by
  cases hb : is_allowed rp url
  · simp [crawl_url, hb]
  · simp [crawl_url, hb]

/-- Counterexample to **C6**: for a blocked seed the returned summary
contains only the `status` field — `url`, `session_id`, `pages_crawled`,
`full_text` and the rest are all absent. -/
theorem crawl_blocked_summary_only_status :
    ((crawl_url "http://x" none false 1 "sid"
        ⟨false, false, fun _ => Except.ok false⟩ id ⟨[], 0, 0, 0⟩).summary.map Prod.fst
      = ["status"])
    ∧ ((crawl_url "http://x" none false 1 "sid"
        ⟨false, false, fun _ => Except.ok false⟩ id ⟨[], 0, 0, 0⟩).summary.lookup "url"
      = none)
    ∧ ((crawl_url "http://x" none false 1 "sid"
        ⟨false, false, fun _ => Except.ok false⟩ id ⟨[], 0, 0, 0⟩).summary.lookup
        "session_id" = none)
    ∧ ((crawl_url "http://x" none false 1 "sid"
        ⟨false, false, fun _ => Except.ok false⟩ id ⟨[], 0, 0, 0⟩).summary.lookup
        "pages_crawled" = none)
    ∧ ((crawl_url "http://x" none false 1 "sid"
        ⟨false, false, fun _ => Except.ok false⟩ id ⟨[], 0, 0, 0⟩).summary.lookup
        "full_text" = none) := by
  refine ⟨?_, ?_, ?_, ?_, ?_⟩ <;> rfl

end Crawler
